import Mathlib

/-!
Shallow embedding of the decision-cycle core of the sovereign-agent-treasury
repository (src/treasury-agent.js, src/engines/decision-engine.js,
src/services/cost-manager.js, src/services/performance-tracker.js).

JavaScript numbers are modelled as rationals; timestamps (Date.now()) are
rationals measured in milliseconds and supplied explicitly to each operation;
a JavaScript exception is an `Except.error`; dynamically-typed JSON values are
the inductive `JVal`.
-/

namespace STA

/-- A JavaScript/JSON value: null, booleans, numbers (as exact rationals),
strings, arrays and objects, as produced by JSON.parse. -/
inductive JVal where
  | null
  | bool (b : Bool)
  | num (q : ℚ)
  | str (s : String)
  | arr (elems : List JVal)
  | obj (members : List (String × JVal))

/-- JavaScript truthiness of a value: null, false, 0 and the empty string are
falsy; every array and object is truthy. -/
def jsTruthy : JVal → Bool
  | .null => false
  | .bool b => b
  | .num q => decide (q ≠ 0)
  | .str s => decide (s ≠ "")
  | .arr _ => true
  | .obj _ => true

/-- Property lookup in an object's member list. When JSON text repeats a key,
JSON.parse keeps the last binding, so the search runs from the back. -/
def objGet (ms : List (String × JVal)) (k : String) : Option JVal :=
  (ms.reverse.find? (fun kv => kv.1 == k)).map Prod.snd

/-- Property access `v[k]`: `some` is a present member, `none` is undefined.
Access on a primitive yields undefined; on `null` real JavaScript throws, but
every use below sits inside a try/catch whose handler coincides with the
undefined branch, so `none` is returned there as well. -/
def jsGet (v : JVal) (k : String) : Option JVal :=
  match v with
  | .obj ms => objGet ms k
  | _ => none

/-- Whether a value is an object; the decision schema the engine prompts for
makes every decision one, and the filter callback's member accesses throw on
anything non-object that is null. -/
def isObjVal : JVal → Bool
  | .obj _ => true
  | _ => false

/-- Numeric value of a digit string, most significant digit first. -/
def digitsToNat (ds : List Char) : ℕ :=
  ds.foldl (fun acc c => acc * 10 + (c.toNat - '0'.toNat)) 0

/-- JavaScript parseFloat on a character list: leading whitespace, an optional
sign, a longest numeric prefix `digits [. digits] [e sign digits]`. `none`
stands for a non-finite result (NaN when no numeric prefix exists); the
"Infinity" spelling, unrepresentable in ℚ, is likewise mapped to `none`. -/
def parseFloatChars (cs : List Char) : Option ℚ :=
  let cs := cs.dropWhile Char.isWhitespace
  let (sgn, cs) : ℚ × List Char :=
    match cs with
    | '-' :: r => (-1, r)
    | '+' :: r => (1, r)
    | _ => (1, cs)
  let (ip, cs) := cs.span Char.isDigit
  let (fp, cs) : List Char × List Char :=
    match cs with
    | '.' :: r => r.span Char.isDigit
    | _ => ([], cs)
  if ip.isEmpty && fp.isEmpty then none
  else
    let mant : ℚ := (digitsToNat ip : ℚ) + (digitsToNat fp : ℚ) / 10 ^ fp.length
    let e : ℤ :=
      match cs with
      | 'e' :: r | 'E' :: r =>
        let (es, r) : ℤ × List Char :=
          match r with
          | '-' :: r2 => (-1, r2)
          | '+' :: r2 => (1, r2)
          | _ => (1, r)
        let eds := r.takeWhile Char.isDigit
        if eds.isEmpty then 0 else es * (digitsToNat eds : ℤ)
      | _ => 0
    some (sgn * mant * (10 : ℚ) ^ e)

/-- JavaScript parseFloat on a string. -/
def parseFloatStr (s : String) : Option ℚ := parseFloatChars s.data

/-- parseFloat applied to a JavaScript value: a number stringifies and parses
back to itself; other values (whose string forms carry no leading number in
the inputs this program meets) give NaN, modelled `none`. -/
def parseFloatVal : JVal → Option ℚ
  | .num q => some q
  | .str s => parseFloatStr s
  | _ => none

/-- JSON's insignificant whitespace characters. -/
def jsonWs (c : Char) : Bool := [' ', '\t', '\n', '\r'].contains c

/-- Discard leading JSON whitespace. -/
def dropJsonWs (cs : List Char) : List Char := cs.dropWhile jsonWs

/-- Value of one hexadecimal digit, by code point. -/
def hexDigit (c : Char) : Option ℕ :=
  let n := c.toNat
  if 48 ≤ n && n ≤ 57 then some (n - 48)
  else if 97 ≤ n && n ≤ 102 then some (n - 87)
  else if 65 ≤ n && n ≤ 70 then some (n - 55)
  else none

/-- Code point of a four-hex-digit escape. -/
def hexQuad (a b c d : Char) : Option ℕ := do
  let va ← hexDigit a
  let vb ← hexDigit b
  let vc ← hexDigit c
  let vd ← hexDigit d
  return ((va * 16 + vb) * 16 + vc) * 16 + vd

/-- The translation table of the single-character escapes JSON strings
admit, escape character first, replacement second. -/
def jsonEscapePairs : List (Char × Char) :=
  [('"', '"'), ('\\', '\\'), ('/', '/'), ('n', '\n'), ('t', '\t'),
   ('r', '\r'), ('b', Char.ofNat 8), ('f', Char.ofNat 12)]

/-- Replacement character of a single-character escape, when legal. -/
def jsonEscape (e : Char) : Option Char :=
  (jsonEscapePairs.find? (fun p => p.1 == e)).map Prod.snd

/-- Body of a JSON string after its opening quote; raw control characters and
bad escapes are rejected, as JSON.parse rejects them. -/
def jsonStrBody : ℕ → List Char → List Char → Option (String × List Char)
  | 0, _, _ => none
  | fuel + 1, acc, cs =>
    match cs with
    | '"' :: r => some (String.mk acc.reverse, r)
    | '\\' :: 'u' :: a :: b :: c :: d :: r =>
      match hexQuad a b c d with
      | some n => jsonStrBody fuel (Char.ofNat n :: acc) r
      | none => none
    | '\\' :: e :: r =>
      match jsonEscape e with
      | some ch => jsonStrBody fuel (ch :: acc) r
      | none => none
    | c :: r => if c.toNat < 32 then none else jsonStrBody fuel (c :: acc) r
    | [] => none

/-- Mantissa and exponent tail of a JSON number already split into its integer
and fraction digits. -/
def jsonNumTail (neg : Bool) (ip fp : List Char) (cs : List Char) :
    Option (ℚ × List Char) :=
  let base : ℚ := (digitsToNat ip : ℚ) + (digitsToNat fp : ℚ) / 10 ^ fp.length
  let v : ℚ := if neg then -base else base
  match cs with
  | 'e' :: r | 'E' :: r =>
    let (sg, r1) : ℤ × List Char :=
      match r with
      | '+' :: r2 => (1, r2)
      | '-' :: r2 => (-1, r2)
      | _ => (1, r)
    let (eds, r2) := r1.span Char.isDigit
    if eds.isEmpty then none
    else some (v * (10 : ℚ) ^ (sg * (digitsToNat eds : ℤ)), r2)
  | _ => some (v, cs)

/-- A JSON number: optional minus, an integer part with no leading zero, an
optional fraction requiring at least one digit, an optional exponent. -/
def jsonNum (cs : List Char) : Option (ℚ × List Char) :=
  let (neg, cs1) : Bool × List Char :=
    match cs with
    | '-' :: r => (true, r)
    | _ => (false, cs)
  let (ip, cs2) := cs1.span Char.isDigit
  if ip.isEmpty then none
  else if 1 < ip.length && ip.headD 'x' == '0' then none
  else
    match cs2 with
    | '.' :: r =>
      let (fp, cs3) := r.span Char.isDigit
      if fp.isEmpty then none else jsonNumTail neg ip fp cs3
    | _ => jsonNumTail neg ip [] cs2

mutual

/-- One JSON value, recursive on a fuel bound. -/
def jsonVal : ℕ → List Char → Option (JVal × List Char)
  | 0, _ => none
  | fuel + 1, cs =>
    match dropJsonWs cs with
    | 'n' :: 'u' :: 'l' :: 'l' :: r => some (.null, r)
    | 't' :: 'r' :: 'u' :: 'e' :: r => some (.bool true, r)
    | 'f' :: 'a' :: 'l' :: 's' :: 'e' :: r => some (.bool false, r)
    | '"' :: r =>
      match jsonStrBody fuel [] r with
      | some (s, r2) => some (.str s, r2)
      | none => none
    | '[' :: r =>
      match dropJsonWs r with
      | ']' :: r2 => some (.arr [], r2)
      | r2 =>
        match jsonElems fuel r2 with
        | some (es, r3) => some (.arr es, r3)
        | none => none
    | '\x7b' :: r =>
      match dropJsonWs r with
      | '\x7d' :: r2 => some (.obj [], r2)
      | r2 =>
        match jsonMembers fuel r2 with
        | some (ms, r3) => some (.obj ms, r3)
        | none => none
    | c :: r =>
      if c == '-' || c.isDigit then
        match jsonNum (c :: r) with
        | some (q, r2) => some (.num q, r2)
        | none => none
      else none
    | [] => none

/-- One or more comma-separated array elements, closed by a bracket. -/
def jsonElems : ℕ → List Char → Option (List JVal × List Char)
  | 0, _ => none
  | fuel + 1, cs =>
    match jsonVal fuel cs with
    | none => none
    | some (v, r) =>
      match dropJsonWs r with
      | ',' :: r2 =>
        match jsonElems fuel r2 with
        | some (vs, r3) => some (v :: vs, r3)
        | none => none
      | ']' :: r2 => some ([v], r2)
      | _ => none

/-- One or more comma-separated object members, closed by a brace. -/
def jsonMembers : ℕ → List Char → Option (List (String × JVal) × List Char)
  | 0, _ => none
  | fuel + 1, cs =>
    match dropJsonWs cs with
    | '"' :: r =>
      match jsonStrBody fuel [] r with
      | none => none
      | some (k, r1) =>
        match dropJsonWs r1 with
        | ':' :: r2 =>
          match jsonVal fuel r2 with
          | none => none
          | some (v, r3) =>
            match dropJsonWs r3 with
            | ',' :: r4 =>
              match jsonMembers fuel r4 with
              | some (ms, r5) => some ((k, v) :: ms, r5)
              | none => none
            | '\x7d' :: r4 => some ([(k, v)], r4)
            | _ => none
        | _ => none
    | _ => none

end

/-- Model of JSON.parse: the whole text, up to trailing whitespace, must be one
JSON value; `none` stands for the SyntaxError the built-in throws. -/
def jsonParse (s : String) : Option JVal :=
  match jsonVal (s.length + 1) s.data with
  | some (v, rest) => if (dropJsonWs rest).isEmpty then some v else none
  | none => none

/-- The extraction step of DecisionEngine.parseDecisions: the greedy regex
match over the response text, which spans from the first opening brace to the
last closing brace whenever the latter lies strictly after the former, and
fails otherwise. -/
def extractJson (s : String) : Option String :=
  let cs := s.data
  match cs.findIdx? (fun c => c == '\x7b'), cs.reverse.findIdx? (fun c => c == '\x7d') with
  | some i, some jr =>
    let j := cs.length - 1 - jr
    if i < j then some (String.mk ((cs.drop i).take (j - i + 1))) else none
  | _, _ => none

/-- DecisionEngine.parseDecisions: extract the brace-delimited block, run
JSON.parse on it, and return the parsed object's decisions member, with `[]`
substituted when extraction, parsing or the member lookup come up empty or
falsy. The enclosing try/catch turns every failure into the `[]` branches, so
the function is total and never propagates an exception. -/
def parseDecisions (aiResponse : String) : JVal :=
  match extractJson aiResponse with
  | none => .arr []
  | some sub =>
    match jsonParse sub with
    | none => .arr []
    | some parsed =>
      match jsGet parsed "decisions" with
      | some v => if jsTruthy v then v else .arr []
      | none => .arr []

/-- The engine's risk tolerance, set in the DecisionEngine constructor and
never reassigned. -/
def riskToleranceInit : ℚ := 7 / 10

/-- First filter rule: the decision's riskLevel member is strictly equal to
the string "high". -/
def isHighRisk (d : JVal) : Bool :=
  match jsGet d "riskLevel" with
  | some (.str s) => s == "high"
  | _ => false

/-- The decision's params.amount member reached through optional chaining:
undefined when params is absent or not an object. -/
def amountMember (d : JVal) : Option JVal :=
  match jsGet d "params" with
  | some p => jsGet p "amount"
  | none => none

/-- Second filter rule as the source writes it: the amount member must be
truthy before parseFloat is consulted, and a NaN comparison is false. -/
def amountTooSmall (d : JVal) : Bool :=
  match amountMember d with
  | some a =>
    jsTruthy a &&
      (match parseFloatVal a with
       | some q => decide (q < 1 / 100)
       | none => false)
  | none => false

/-- DecisionEngine.applyRiskFilters: one pass over the decisions, each kept
unless a rule rejects it, in the source's rule order. -/
def applyRiskFilters (riskTolerance : ℚ) (decisions : List JVal) (totalValue : ℚ) :
    List JVal :=
  match decisions with
  | [] => []
  | d :: ds =>
    let keep : Bool :=
      if isHighRisk d && decide (riskTolerance < 4 / 5) then false
      else if amountTooSmall d then false
      else if decide (totalValue < 10) then false
      else true
    if keep then d :: applyRiskFilters riskTolerance ds totalValue
    else applyRiskFilters riskTolerance ds totalValue

/-- One decision-history record pushed by DecisionEngine.logDecisions; only the
members the bound-history claims inspect are carried. -/
structure DecisionRecord where
  timestamp : ℚ
  portfolioValue : ℚ
  decisions : List JVal

/-- DecisionEngine.logDecisions restricted to its history mutation: push the
record, then shift the oldest entry off once the length passes 100. -/
def logDecisions (history : List DecisionRecord) (r : DecisionRecord) :
    List DecisionRecord :=
  let h := history ++ [r]
  if 100 < h.length then h.tail else h

/-- A run of logDecisions over a whole sequence of recorded batches, from the
constructor's empty history. -/
def recordAllDecisions (rs : List DecisionRecord) : List DecisionRecord :=
  rs.foldl logDecisions []

/-- The two model providers of the engine. -/
inductive Provider where
  | primary
  | fallback
deriving DecidableEq

/-- Outcomes the two providers can give in one cycle: the local-Llama fetch
either yields the response member of the reply or throws, and the OpenRouter
client either resolves with the completion text or rejects. The constructor
sets useLocalFirst to true and never changes it; fallbackConfigured mirrors
OpenRouterClient.isConfigured. -/
structure ProviderEnv where
  useLocalFirst : Bool
  primaryResult : Except String String
  fallbackConfigured : Bool
  fallbackResult : Except String String

/-- The error queryLlama throws when every provider has failed. -/
def allModelsFailedMsg : String :=
  "All AI models failed - cannot make investment decisions"

/-- The OpenRouter half of queryLlama: attempted only when configured; a falsy
resolved value also falls through to the terminal throw. -/
def queryLlamaFallback (env : ProviderEnv) (attempted : List Provider) :
    List Provider × Except String String :=
  if env.fallbackConfigured then
    match env.fallbackResult with
    | .ok r =>
      if r = "" then (attempted ++ [.fallback], .error allModelsFailedMsg)
      else (attempted ++ [.fallback], .ok r)
    | .error _ => (attempted ++ [.fallback], .error allModelsFailedMsg)
  else (attempted, .error allModelsFailedMsg)

/-- DecisionEngine.queryLlama, instrumented with the list of providers it
attempts, in order: local Llama first when useLocalFirst, any failure caught
and answered by the OpenRouter fallback, and a throw when all fail. -/
def queryLlama (env : ProviderEnv) : List Provider × Except String String :=
  if env.useLocalFirst then
    match env.primaryResult with
    | .ok r => ([.primary], .ok r)
    | .error _ => queryLlamaFallback env [.primary]
  else queryLlamaFallback env []

/-- DecisionEngine.analyzeAndDecide: query with fallback, parse, risk-filter;
the surrounding try/catch answers every thrown error with the empty decision
list. A truthy non-array decisions member makes the filter call throw, which
the same catch also turns into `[]`. -/
def analyzeAndDecide (env : ProviderEnv) (totalValue : ℚ) : List JVal :=
  match (queryLlama env).2 with
  | .error _ => []
  | .ok text =>
    match parseDecisions text with
    | .arr ds => applyRiskFilters riskToleranceInit ds totalValue
    | _ => []

/-- The strategy method TreasuryAgent.executeDecisions dispatches a decision
to, keyed by the switch on decision.action; `none` is the default branch, an
unknown action kind that is only logged. -/
def dispatchTarget (d : JVal) : Option String :=
  match jsGet d "action" with
  | some (.str "lend") => some "lendAssets"
  | some (.str "stake") => some "stakeAssets"
  | some (.str "swap") => some "swapAssets"
  | some (.str "rebalance") => some "rebalancePortfolio"
  | _ => none

/-- One performance-ledger event appended by executeDecisions: its kind and
the action member of the decision it reports on. -/
structure ExecEvent where
  kind : String
  action : Option JVal

/-- The loop body of executeDecisions for one decision: run the matched
strategy method if any, record decision_executed on success and on the
unknown-action path, decision_failed when the executor throws. The second
component lists the executor calls made. -/
def executeOne (ex : String → Option JVal → Except String Unit) (d : JVal) :
    ExecEvent × List (String × Option JVal) :=
  let act := jsGet d "action"
  let ps := jsGet d "params"
  match dispatchTarget d with
  | none => (⟨"decision_executed", act⟩, [])
  | some m =>
    match ex m ps with
    | .ok _ => (⟨"decision_executed", act⟩, [(m, ps)])
    | .error _ => (⟨"decision_failed", act⟩, [(m, ps)])

/-- TreasuryAgent.executeDecisions: a for-loop with a per-decision try/catch,
so every decision of the batch is processed whatever its neighbours did.
Yields the events appended to the ledger and the executor calls, in order. -/
def executeDecisions (ex : String → Option JVal → Except String Unit) :
    List JVal → List ExecEvent × List (String × Option JVal)
  | [] => ([], [])
  | d :: ds =>
    let (e, c) := executeOne ex d
    let (es, cs) := executeDecisions ex ds
    (e :: es, c ++ cs)

/-- One entry of a wallet's balance list as the wallet service reports it. -/
structure TokenBalance where
  rawValue : String
  decimals : ℕ
  asset : String

/-- One wallet of the balance report. -/
structure WalletBalances where
  balances : List TokenBalance

/-- The balance report, split into Solana and EVM wallet lists. -/
structure BalanceReport where
  solanaWallets : List WalletBalances
  evmWallets : List WalletBalances

/-- JavaScript String.prototype.toLowerCase on the ASCII asset symbols the
balance report carries: each character lower-cased in place. -/
def toLowerAscii (s : String) : String := String.mk (s.data.map Char.toLower)

/-- The fixed price table of TreasuryAgent.calculateTotalValue, consulted with
the lower-cased asset symbol; a missing entry prices at zero. -/
def priceOf (assetLower : String) : ℚ :=
  if assetLower = "sol" then 177 / 2
  else if assetLower = "usdc" then 1
  else if assetLower = "eth" then 213326 / 100
  else 0

/-- Contribution of one balance: parseFloat of the raw value scaled down by
the decimals, times the table price; `none` is the NaN a bad raw value
propagates into the running total. -/
def balanceValue (b : TokenBalance) : Option ℚ :=
  (parseFloatStr b.rawValue).map
    (fun amt => amt / 10 ^ b.decimals * priceOf (toLowerAscii b.asset))

/-- Addition on the running total, with NaN absorbing. -/
def addVal : Option ℚ → Option ℚ → Option ℚ
  | some a, some b => some (a + b)
  | _, _ => none

/-- TreasuryAgent.calculateTotalValue: the two nested loops over the spread of
both wallet lists and each wallet's balances, accumulating from zero. -/
def calculateTotalValue (r : BalanceReport) : Option ℚ :=
  (r.solanaWallets ++ r.evmWallets).foldl
    (fun acc w => w.balances.foldl (fun acc2 b => addVal acc2 (balanceValue b)) acc)
    (some 0)

/-- The balances of a report flattened in traversal order: Solana wallets
first, then EVM wallets, each wallet's balance list in place. -/
def reportBalances (r : BalanceReport) : List TokenBalance :=
  ((r.solanaWallets ++ r.evmWallets).map WalletBalances.balances).flatten

/-- Whether an Except outcome is a success, for the per-tick record of the
autonomous loop. -/
def cycleSucceeded (r : Except String Unit) : Bool :=
  match r with
  | .ok _ => true
  | .error _ => false

/-- TreasuryAgent.startAutonomousLoop observed for a given number of interval
ticks, over an abstract outcome of each decision cycle. The immediate first
run (cycle 0) is awaited outside any try/catch, so its error propagates and
the recurring interval is never installed; each interval tick k ≥ 1 runs its
cycle inside the callback's try/catch, so its error is caught and logged and
the next tick still fires. On the successful path the result lists every tick
with the index of the cycle it attempted and whether that cycle succeeded. -/
def startAutonomousLoop (cycle : ℕ → Except String Unit) (ticks : ℕ) :
    Except String (List (ℕ × Bool)) :=
  match cycle 0 with
  | .error e => .error e
  | .ok _ => .ok ((List.range ticks).map (fun i => (i + 1, cycleSucceeded (cycle (i + 1)))))

/-- One cost category of the CostManager constructor: a running total and the
timestamp of the last payment, both starting at zero. -/
structure CostCategory where
  total : ℚ
  lastPayment : ℚ

/-- The CostManager state: the compute category (the only one the claims'
operations touch beyond reading totals), the api and transactions totals, and
the construction-time startTime. -/
structure CostState where
  compute : CostCategory
  apiTotal : ℚ
  transactionsTotal : ℚ
  startTime : ℚ

/-- The compute rate of the constructor: $0.05 per hour. -/
def computePerHour : ℚ := 1 / 20

/-- Milliseconds in an hour, the divisor the source applies to Date.now
differences. -/
def msPerHour : ℚ := 3600000

/-- The payment threshold of estimateCurrentCosts: pay at $0.01. -/
def payThreshold : ℚ := 1 / 100

/-- CostManager constructor at a given clock reading. -/
def initCostState (startTime : ℚ) : CostState :=
  ⟨⟨0, 0⟩, 0, 0, startTime⟩

/-- The result object of estimateCurrentCosts (the breakdown members other
than compute repeat stored totals and are not re-read by any claim). -/
structure CostEstimate where
  shouldPay : Bool
  amount : ℚ
  computeCost : ℚ

/-- CostManager.estimateCurrentCosts at clock reading `now`: cost since start,
cost of the period since the last payment, and the threshold test on the
latter. Reads no state it does not return. -/
def estimateCurrentCosts (st : CostState) (now : ℚ) : CostEstimate :=
  let hoursRunning := (now - st.startTime) / msPerHour
  let computeCost := hoursRunning * computePerHour
  let timeSinceLastPayment := (now - st.compute.lastPayment) / msPerHour
  let currentPeriodCost := timeSinceLastPayment * computePerHour
  ⟨decide (payThreshold ≤ currentPeriodCost), currentPeriodCost, computeCost⟩

/-- CostManager.payComputeCosts at clock reading `now`: add the amount to the
compute total and stamp the payment time. -/
def payComputeCosts (st : CostState) (now amount : ℚ) : CostState :=
  { st with compute := ⟨st.compute.total + amount, now⟩ }

/-- The two ledger operations a claim interleaves; each call carries its
Date.now reading. -/
inductive CostOp where
  | estimateCosts
  | payEstimatedCosts

/-- Effect of one operation: an estimate mutates nothing; a payment pays the
amount the estimate at the same instant reports, as the orchestrator's
payComputeCosts step wires the two calls together. -/
def costStep (st : CostState) (op : CostOp × ℚ) : CostState :=
  match op.1 with
  | .estimateCosts => st
  | .payEstimatedCosts => payComputeCosts st op.2 (estimateCurrentCosts st op.2).amount

/-- The states an interleaving passes through, starting state included. -/
def costTrace (st : CostState) : List (CostOp × ℚ) → List CostState
  | [] => [st]
  | op :: ops => st :: costTrace (costStep st op) ops

/-- The autonomy counters of the PerformanceTracker metrics object (the rest
of the metrics feed no claim). -/
structure AutonomyMetrics where
  autonomousDecisions : ℕ
  selfSufficientCycles : ℕ

/-- PerformanceTracker state: each snapshot is kept as its totalValue, each
event as its type string, the only members its counter logic reads. -/
structure TrackerState where
  snapshots : List ℚ
  events : List String
  metrics : AutonomyMetrics

/-- PerformanceTracker constructor. -/
def initTracker : TrackerState := ⟨[], [], ⟨0, 0⟩⟩

/-- The event types PerformanceTracker.isAutonomousEvent accepts. -/
def autonomousTypes : List String :=
  ["decision_executed", "self_payment", "autonomous_rebalance",
   "risk_mitigation", "yield_optimization"]

/-- PerformanceTracker.isAutonomousEvent. -/
def isAutonomousEvent (ty : String) : Bool := autonomousTypes.contains ty

/-- PerformanceTracker.recordEvent: append the event, then bump the
autonomousDecisions counter in place for any autonomous type. -/
def recordEvent (st : TrackerState) (ty : String) : TrackerState :=
  let st1 : TrackerState := { st with events := st.events ++ [ty] }
  if isAutonomousEvent ty then
    { st1 with
      metrics :=
        { st1.metrics with
          autonomousDecisions := st1.metrics.autonomousDecisions + 1 } }
  else st1

/-- Number of recorded events of one type. -/
def countType (ty : String) (evs : List String) : ℕ :=
  (evs.filter (fun e => e == ty)).length

/-- PerformanceTracker.calculateAutonomyMetrics: overwrite both counters with
fresh counts over the event ledger. -/
def calculateAutonomyMetrics (st : TrackerState) : TrackerState :=
  { st with
    metrics :=
      ⟨countType "decision_executed" st.events,
       countType "self_payment" st.events⟩ }

/-- PerformanceTracker.updatePerformanceMetrics restricted to the counter
recomputation (the return and risk figures it also refreshes are outside
every claim); it runs only once at least two snapshots exist. -/
def updatePerformanceMetrics (st : TrackerState) : TrackerState :=
  if st.snapshots.length < 2 then st else calculateAutonomyMetrics st

/-- PerformanceTracker.recordSnapshot: append the snapshot and refresh the
derived metrics once a baseline exists. -/
def recordSnapshot (st : TrackerState) (v : ℚ) : TrackerState :=
  let st1 : TrackerState := { st with snapshots := st.snapshots ++ [v] }
  if 1 < st1.snapshots.length then updatePerformanceMetrics st1 else st1

/-! Concrete sample data used by counterexamples and witnesses. -/

/-- A cycle schedule whose very first decision cycle throws and all later
cycles succeed. -/
def firstCycleThrows : ℕ → Except String Unit :=
  fun k => if k = 0 then .error "cycle failure" else .ok ()

/-- A cycle schedule that succeeds immediately but fails at tick two. -/
def mixedCycles : ℕ → Except String Unit :=
  fun k => if k = 2 then .error "tick two failure" else .ok ()

/-- A provider environment in which the local model times out and the
configured OpenRouter fallback rejects. -/
def envBothFail : ProviderEnv :=
  ⟨true, .error "timeout", true, .error "rate limited"⟩

/-- A low-risk lend decision whose params.amount is the number 0. -/
def zeroAmountDecision : JVal :=
  .obj [("action", .str "lend"), ("riskLevel", .str "low"),
        ("params", .obj [("amount", .num 0)])]

/-- A high-risk decision that the tolerance rule rejects. -/
def highRiskDecision : JVal :=
  .obj [("action", .str "swap"), ("riskLevel", .str "high"),
        ("params", .obj [("amount", .str "2")])]

/-- A decision whose string amount parses below the minimum tradable size. -/
def dustDecision : JVal :=
  .obj [("action", .str "stake"), ("riskLevel", .str "low"),
        ("params", .obj [("amount", .str "0.005")])]

/-- A decision that passes every filter rule. -/
def keptDecision : JVal :=
  .obj [("action", .str "lend"), ("riskLevel", .str "medium"),
        ("params", .obj [("amount", .str "5"), ("asset", .str "SOL")])]

/-- A decision whose action kind no switch case matches. -/
def unknownActionDecision : JVal :=
  .obj [("action", .str "short"), ("riskLevel", .str "low"),
        ("params", .obj [("amount", .str "3")])]

/-- The filter input exercised by the C4 witness. -/
def filterSample : List JVal :=
  [highRiskDecision, keptDecision, dustDecision]

/-- The dispatch batch exercised by the C5 witness: a failing stake sits
between decisions that must still be attempted. -/
def dispatchSample : List JVal :=
  [keptDecision, unknownActionDecision, dustDecision, highRiskDecision]

/-- An executor environment whose stakeAssets method throws. -/
def failingStakeExec : String → Option JVal → Except String Unit :=
  fun m _ => if m = "stakeAssets" then .error "protocol unavailable" else .ok ()

/-- A model response carrying one well-formed decision inside prose. -/
def singleDecisionText : String :=
  "Here is my analysis of the portfolio. " ++
  "\x7b\"decisions\":[\x7b\"action\":\"lend\"," ++
  "\"reasoning\":\"Kamino lending offers steady yield\"," ++
  "\"params\":\x7b\"amount\":\"5\",\"asset\":\"SOL\"," ++
  "\"target\":\"kamino\",\"expectedYield\":\"6.5\"\x7d," ++
  "\"priority\":\"high\",\"riskLevel\":\"low\"\x7d]\x7d"

/-- The decision object singleDecisionText carries, every field intact. -/
def singleDecisionVal : JVal :=
  .obj [("action", .str "lend"),
        ("reasoning", .str "Kamino lending offers steady yield"),
        ("params", .obj [("amount", .str "5"), ("asset", .str "SOL"),
                         ("target", .str "kamino"), ("expectedYield", .str "6.5")]),
        ("priority", .str "high"), ("riskLevel", .str "low")]

/-- A balance report holding one Solana wallet with one SOL balance of
1,000,000,000 raw units at 9 decimals. -/
def solReport : BalanceReport :=
  ⟨[⟨[⟨"1000000000", 9, "SOL"⟩]⟩], []⟩

/-- One hundred and one decision batches, to overflow the history bound. -/
def manyRecords : List DecisionRecord :=
  (List.range 101).map (fun (i : ℕ) => ⟨(i : ℚ), 0, []⟩)

/-- A tracker state with one snapshot, drifted counters and a mixed event
ledger, exercised by the C9 witness. -/
def driftedTracker : TrackerState :=
  ⟨[100], ["self_payment", "decision_executed", "self_payment"], ⟨7, 9⟩⟩

/-- A cost-operation interleaving at strictly increasing clock readings. -/
def costOpsSample : List (CostOp × ℚ) :=
  [(CostOp.estimateCosts, 1700000000000),
   (CostOp.payEstimatedCosts, 1700000600000),
   (CostOp.estimateCosts, 1700000600000),
   (CostOp.payEstimatedCosts, 1700002400000)]

/-! Theorems settling the claims. -/

/-- C1, counterexample: the claim asserts that an error thrown by any single
decision cycle, including the very first one, is caught at the cycle boundary
and every subsequent cycle is still scheduled. On a schedule whose first cycle
throws, startAutonomousLoop instead propagates the error — the immediate first
run is awaited outside any try/catch — so the recurring interval is never
installed and no further cycle is ever attempted, while the claim demands the
successful outcome listing ticks 1..5. -/
theorem c1_first_cycle_error_halts_loop :
    startAutonomousLoop firstCycleThrows 5 = Except.error "cycle failure" ∧
    startAutonomousLoop firstCycleThrows 5 ≠
      Except.ok [(1, true), (2, true), (3, true), (4, true), (5, true)] := by
  exact ⟨rfl, fun h => Except.noConfusion h⟩

/-- C1 (amended): once the immediate first cycle completes without throwing,
the recurring interval is installed and every subsequent cycle is attempted on
schedule; an error in any of those cycles is caught inside the interval
callback, so no later tick is lost. Only an error in the very first cycle
escapes startAutonomousLoop and halts the loop before the timer exists. -/
theorem c1_loop_survives_tick_errors (cycle : ℕ → Except String Unit) (n : ℕ)
    (h : cycle 0 = Except.ok ()) :
    startAutonomousLoop cycle n =
      Except.ok ((List.range n).map (fun i => (i + 1, cycleSucceeded (cycle (i + 1))))) ∧
    ((List.range n).map (fun i => (i + 1, cycleSucceeded (cycle (i + 1))))).map Prod.fst =
      (List.range n).map (fun i => i + 1) := by
  constructor
  · unfold startAutonomousLoop
    rw [h]
  · simp

/-- C1 witness: a schedule that succeeds at cycle 0 but throws at tick two
still has every tick attempted. -/
theorem c1_loop_survives_tick_errors_witness :
    startAutonomousLoop mixedCycles 3 =
      Except.ok ((List.range 3).map (fun i => (i + 1, cycleSucceeded (mixedCycles (i + 1))))) ∧
    ((List.range 3).map (fun i => (i + 1, cycleSucceeded (mixedCycles (i + 1))))).map Prod.fst =
      (List.range 3).map (fun i => i + 1) :=
  c1_loop_survives_tick_errors mixedCycles 3 rfl

/-- C2: with the constructor's useLocalFirst flag and a configured fallback,
queryLlama attempts the Primary provider first; whenever Primary errors it
attempts the Fallback before giving up; and when both fail the query throws
the terminal error, which analyzeAndDecide's catch converts into the empty
decision list rather than a propagated exception. -/
theorem c2_fallback_then_empty (env : ProviderEnv)
    (hu : env.useLocalFirst = true) (hc : env.fallbackConfigured = true) :
    (queryLlama env).1.head? = some Provider.primary ∧
    (∀ e, env.primaryResult = Except.error e →
      (queryLlama env).1 = [Provider.primary, Provider.fallback]) ∧
    (∀ e, env.primaryResult = Except.error e →
      (env.fallbackResult = Except.ok "" ∨ ∃ e2, env.fallbackResult = Except.error e2) →
      (queryLlama env).2 = Except.error allModelsFailedMsg ∧
        ∀ v, analyzeAndDecide env v = []) := by
  obtain ⟨ul, pr, fc, fr⟩ := env
  simp only at hu hc
  subst hu hc
  refine ⟨?_, ?_, ?_⟩
  · cases pr with
    | ok r => rfl
    | error e =>
      cases fr with
      | ok r =>
        by_cases hr : r = "" <;>
          simp [queryLlama, queryLlamaFallback, hr]
      | error e2 => rfl
  · intro e he
    cases pr with
    | ok r => exact absurd he (by simp)
    | error e1 =>
      cases fr with
      | ok r =>
        by_cases hr : r = "" <;>
          simp [queryLlama, queryLlamaFallback, hr]
      | error e2 => rfl
  · intro e he hboth
    cases pr with
    | ok r => exact absurd he (by simp)
    | error e1 =>
      rcases hboth with hok | ⟨e2, herr⟩
      · simp only at hok
        subst hok
        exact ⟨rfl, fun v => rfl⟩
      · simp only at herr
        subst herr
        exact ⟨rfl, fun v => rfl⟩

/-- C2 witness: with a timed-out Primary and a rejecting Fallback both
providers are attempted in order and the cycle's decisions come back empty. -/
theorem c2_fallback_then_empty_witness :
    (queryLlama envBothFail).1 = [Provider.primary, Provider.fallback] ∧
    (queryLlama envBothFail).2 = Except.error allModelsFailedMsg ∧
    analyzeAndDecide envBothFail 42 = [] :=
  ⟨(c2_fallback_then_empty envBothFail rfl rfl).2.1 "timeout" rfl,
   ((c2_fallback_then_empty envBothFail rfl rfl).2.2 "timeout" rfl
      (Or.inr ⟨"rate limited", rfl⟩)).1,
   ((c2_fallback_then_empty envBothFail rfl rfl).2.2 "timeout" rfl
      (Or.inr ⟨"rate limited", rfl⟩)).2 42⟩

/-- C10: the constructor leaves compute.lastPayment at 0, the Unix epoch, so
the very first estimateCurrentCosts call prices the whole span since the epoch
as the current period: it reports shouldPay and an amount exceeding the cost
accrued since the agent's startTime (the computeCost member) by startTime's
own share — a vast excess for any realistic epoch timestamp. Hypotheses: the
agent started at least 12 minutes (720000 ms, one payment period) after the
epoch, and the estimate happens at or after the start. -/
theorem c10_first_estimate_overcharges (s now : ℚ)
    (hs : 720000 ≤ s) (hn : s ≤ now) :
    (initCostState s).compute.lastPayment = 0 ∧
    (estimateCurrentCosts (initCostState s) now).amount =
      now / msPerHour * computePerHour ∧
    (estimateCurrentCosts (initCostState s) now).shouldPay = true ∧
    (estimateCurrentCosts (initCostState s) now).computeCost =
      (now - s) / msPerHour * computePerHour ∧
    (estimateCurrentCosts (initCostState s) now).amount =
      (estimateCurrentCosts (initCostState s) now).computeCost +
        s / msPerHour * computePerHour ∧
    (estimateCurrentCosts (initCostState s) now).computeCost <
      (estimateCurrentCosts (initCostState s) now).amount := by
  refine ⟨rfl, by simp [estimateCurrentCosts, initCostState], ?_, rfl, ?_, ?_⟩
  · simp only [estimateCurrentCosts, initCostState, decide_eq_true_iff,
      payThreshold, msPerHour, computePerHour]
    linarith
  · simp only [estimateCurrentCosts, initCostState, msPerHour, computePerHour]
    ring
  · simp only [estimateCurrentCosts, initCostState, msPerHour, computePerHour]
    linarith

/-- C10 witness: an agent constructed at a realistic epoch timestamp and
estimating five minutes later. -/
theorem c10_first_estimate_overcharges_witness :
    (initCostState 1700000000000).compute.lastPayment = 0 ∧
    (estimateCurrentCosts (initCostState 1700000000000) 1700000300000).amount =
      1700000300000 / msPerHour * computePerHour ∧
    (estimateCurrentCosts (initCostState 1700000000000) 1700000300000).shouldPay = true ∧
    (estimateCurrentCosts (initCostState 1700000000000) 1700000300000).computeCost =
      (1700000300000 - 1700000000000) / msPerHour * computePerHour ∧
    (estimateCurrentCosts (initCostState 1700000000000) 1700000300000).amount =
      (estimateCurrentCosts (initCostState 1700000000000) 1700000300000).computeCost +
        1700000000000 / msPerHour * computePerHour ∧
    (estimateCurrentCosts (initCostState 1700000000000) 1700000300000).computeCost <
      (estimateCurrentCosts (initCostState 1700000000000) 1700000300000).amount :=
  c10_first_estimate_overcharges 1700000000000 1700000300000
    (by norm_num) (by norm_num)

/-- C9, counterexample: the claim asserts the reported autonomy counters
always equal recomputed counts over the event ledger. But recordEvent bumps
autonomousDecisions in place for every autonomous event type: after recording
one self_payment event from the fresh tracker, autonomousDecisions reads 1
although zero decision_executed events exist, and selfSufficientCycles still
reads 0 although one self_payment event exists. The counters drift until a
snapshot-triggered recomputation overwrites them. -/
theorem c9_incremental_drift :
    (recordEvent initTracker "self_payment").metrics.autonomousDecisions = 1 ∧
    countType "decision_executed" (recordEvent initTracker "self_payment").events = 0 ∧
    (recordEvent initTracker "self_payment").metrics.selfSufficientCycles = 0 ∧
    countType "self_payment" (recordEvent initTracker "self_payment").events = 1 :=
  ⟨rfl, rfl, rfl, rfl⟩

/-- C9 (amended): the counters equal the recomputed counts — autonomousDecisions
the number of decision_executed events and selfSufficientCycles the number of
self_payment events — exactly at the recomputation points: after any
calculateAutonomyMetrics call, and so after any recordSnapshot on a tracker
that already holds a baseline snapshot. Between recomputations recordEvent's
in-place increment can make the reported values drift from those counts. -/
theorem c9_counters_recomputed (st : TrackerState) (v : ℚ)
    (h : 1 ≤ st.snapshots.length) :
    ((calculateAutonomyMetrics st).metrics.autonomousDecisions =
        countType "decision_executed" (calculateAutonomyMetrics st).events ∧
      (calculateAutonomyMetrics st).metrics.selfSufficientCycles =
        countType "self_payment" (calculateAutonomyMetrics st).events) ∧
    ((recordSnapshot st v).metrics.autonomousDecisions =
        countType "decision_executed" (recordSnapshot st v).events ∧
      (recordSnapshot st v).metrics.selfSufficientCycles =
        countType "self_payment" (recordSnapshot st v).events) := by
  refine ⟨⟨rfl, rfl⟩, ?_⟩
  have h2 : ¬(st.snapshots.length + 1 < 2) := by omega
  have h1 : 1 < st.snapshots.length + 1 := by omega
  simp [recordSnapshot, updatePerformanceMetrics, calculateAutonomyMetrics, h1, h2]

/-- C9 witness: a tracker with one prior snapshot and drifted counters has
both counters equal to the recomputed event counts after the next snapshot. -/
theorem c9_counters_recomputed_witness :
    ((calculateAutonomyMetrics driftedTracker).metrics.autonomousDecisions =
        countType "decision_executed" (calculateAutonomyMetrics driftedTracker).events ∧
      (calculateAutonomyMetrics driftedTracker).metrics.selfSufficientCycles =
        countType "self_payment" (calculateAutonomyMetrics driftedTracker).events) ∧
    ((recordSnapshot driftedTracker 50).metrics.autonomousDecisions =
        countType "decision_executed" (recordSnapshot driftedTracker 50).events ∧
      (recordSnapshot driftedTracker 50).metrics.selfSufficientCycles =
        countType "self_payment" (recordSnapshot driftedTracker 50).events) :=
  c9_counters_recomputed driftedTracker 50 (by simp [driftedTracker])

/-- C5: dispatching a batch of accepted decisions appends exactly one
execution-outcome event per decision, in order; each decision's outcome and
its executor calls depend only on that decision, so one executor failure
cannot prevent any later decision in the batch from being attempted; a
decision whose action kind matches no switch case triggers no executor call
and is merely logged; and every recorded outcome is either decision_executed
or decision_failed. -/
theorem c5_dispatch_isolated (ex : String → Option JVal → Except String Unit)
    (ds : List JVal) :
    (executeDecisions ex ds).1 = ds.map (fun d => (executeOne ex d).1) ∧
    (executeDecisions ex ds).1.length = ds.length ∧
    (executeDecisions ex ds).2 = ds.flatMap (fun d => (executeOne ex d).2) ∧
    (∀ d ∈ ds, dispatchTarget d = none →
      (executeOne ex d).2 = [] ∧ (executeOne ex d).1.kind = "decision_executed") ∧
    (∀ d ∈ ds, (executeOne ex d).1.kind = "decision_executed" ∨
      (executeOne ex d).1.kind = "decision_failed") := by
  refine ⟨?_, ?_, ?_, ?_, ?_⟩
  · induction ds with
    | nil => rfl
    | cons d ds ih => simp [executeDecisions, ih]
  · induction ds with
    | nil => rfl
    | cons d ds ih => simp [executeDecisions, ih]
  · induction ds with
    | nil => rfl
    | cons d ds ih => simp [executeDecisions, ih]
  · intro d _ hnone
    simp [executeOne, hnone]
  · intro d _
    unfold executeOne
    cases hdt : dispatchTarget d with
    | none => simp
    | some m =>
      cases hex : ex m (jsGet d "params") with
      | ok u => simp [hex]
      | error e => simp [hex]

/-- C5 witness: in a batch holding a passing lend, an unknown action, a
failing stake and a further decision, every decision yields exactly one
outcome record and the unknown action executes nothing. -/
theorem c5_dispatch_isolated_witness :
    (executeDecisions failingStakeExec dispatchSample).1.length = dispatchSample.length ∧
    (executeOne failingStakeExec unknownActionDecision).2 = [] ∧
    (executeOne failingStakeExec unknownActionDecision).1.kind = "decision_executed" :=
  ⟨(c5_dispatch_isolated failingStakeExec dispatchSample).2.1,
   ((c5_dispatch_isolated failingStakeExec dispatchSample).2.2.2.1
      unknownActionDecision (by simp [dispatchSample]) rfl).1,
   ((c5_dispatch_isolated failingStakeExec dispatchSample).2.2.2.1
      unknownActionDecision (by simp [dispatchSample]) rfl).2⟩

/-- The rule cascade of the filter callback, as one boolean conjunction. -/
theorem keepCascadeEq (A B C : Bool) :
    (if A = true then false else if B = true then false
     else if C = true then false else true) = (!A && !B && !C) := by
  cases A <;> cases B <;> cases C <;> simp

/-- C4, counterexample: the claim asserts every decision whose amount is below
the minimum tradable amount 0.01 is rejected. But the source guards the
parseFloat comparison behind JavaScript truthiness of params.amount, so a
decision whose amount is the number 0 — which is below 0.01 — is falsy, skips
the comparison, and survives the filter in a cycle with ample liquidity. -/
theorem c4_zero_amount_survives :
    applyRiskFilters riskToleranceInit [zeroAmountDecision] 100 = [zeroAmountDecision] ∧
    amountMember zeroAmountDecision = some (JVal.num 0) ∧
    ((0 : ℚ) < 1 / 100) :=
  ⟨rfl, rfl, by norm_num⟩

/-- C4 (amended): for every list of decision objects and every current state,
applyRiskFilters returns exactly the subsequence of the input, in original
relative order with no re-sorting, obtained by rejecting each decision whose
riskLevel is the string "high" while the risk tolerance is below 0.8, each
decision whose params.amount member is truthy (present, nonzero, nonempty)
and parses below the minimum tradable amount 0.01 — a decision whose amount
is 0, an empty string or absent is not rejected by this rule — and every
decision of the cycle when the current total portfolio value is below the
liquidity floor 10. -/
theorem c4_filter_subsequence (riskTolerance totalValue : ℚ) (ds : List JVal)
    (_hobj : ∀ d ∈ ds, isObjVal d = true) :
    applyRiskFilters riskTolerance ds totalValue =
      ds.filter (fun d =>
        !(isHighRisk d && decide (riskTolerance < 4 / 5)) &&
        !(amountTooSmall d) && !(decide (totalValue < 10))) ∧
    (applyRiskFilters riskTolerance ds totalValue).Sublist ds ∧
    (∀ d ∈ applyRiskFilters riskTolerance ds totalValue,
      ¬(isHighRisk d = true ∧ riskTolerance < 4 / 5) ∧
      ¬(amountTooSmall d = true) ∧ ¬(totalValue < 10)) ∧
    (∀ d ∈ ds, ¬(isHighRisk d = true ∧ riskTolerance < 4 / 5) →
      ¬(amountTooSmall d = true) → ¬(totalValue < 10) →
      d ∈ applyRiskFilters riskTolerance ds totalValue) := by
  clear _hobj
  have hfil : applyRiskFilters riskTolerance ds totalValue =
      ds.filter (fun d =>
        !(isHighRisk d && decide (riskTolerance < 4 / 5)) &&
        !(amountTooSmall d) && !(decide (totalValue < 10))) := by
    induction ds with
    | nil => rfl
    | cons d ds ih =>
      show (if (if (isHighRisk d && decide (riskTolerance < 4 / 5)) = true then false
                else if amountTooSmall d = true then false
                else if decide (totalValue < 10) = true then false else true) = true
            then d :: applyRiskFilters riskTolerance ds totalValue
            else applyRiskFilters riskTolerance ds totalValue) = _
      rw [keepCascadeEq, ih, List.filter_cons]
  refine ⟨hfil, ?_, ?_, ?_⟩
  · rw [hfil]
    exact List.filter_sublist ds
  · intro d hd
    rw [hfil] at hd
    have := List.of_mem_filter hd
    simp only [Bool.and_eq_true, Bool.not_eq_true'] at this
    obtain ⟨⟨hh, ha⟩, hv⟩ := this
    refine ⟨?_, ?_, ?_⟩
    · intro ⟨hhi, hto⟩
      rw [hhi] at hh
      simp [hto] at hh
    · intro hat
      rw [hat] at ha
      exact Bool.noConfusion ha
    · intro hlt
      simp [hlt] at hv
  · intro d hd h1 h2 h3
    rw [hfil]
    refine List.mem_filter.mpr ⟨hd, ?_⟩
    have hb1 : (isHighRisk d && decide (riskTolerance < 4 / 5)) = false := by
      by_cases hh : isHighRisk d = true
      · have : ¬(riskTolerance < 4 / 5) := fun hc => h1 ⟨hh, hc⟩
        simp [hh, this]
      · simp [Bool.eq_false_iff.mpr hh]
    have hb2 : amountTooSmall d = false := Bool.eq_false_iff.mpr h2
    have hb3 : decide (totalValue < 10) = false := by simp [h3]
    simp [hb1, hb2, hb3]

/-- C4 witness: with the engine's tolerance 0.7 and a well-funded state, the
high-risk decision and the dust-amount decision are rejected while the
passing decision is kept in place. -/
theorem c4_filter_subsequence_witness :
    applyRiskFilters riskToleranceInit filterSample 100 =
      filterSample.filter (fun d =>
        !(isHighRisk d && decide (riskToleranceInit < 4 / 5)) &&
        !(amountTooSmall d) && !(decide ((100 : ℚ) < 10))) ∧
    (applyRiskFilters riskToleranceInit filterSample 100).Sublist filterSample :=
  ⟨(c4_filter_subsequence riskToleranceInit 100 filterSample
      (by intro d hd; fin_cases hd <;> rfl)).1,
   (c4_filter_subsequence riskToleranceInit 100 filterSample
      (by intro d hd; fin_cases hd <;> rfl)).2.1⟩

set_option maxRecDepth 4000

/-- C6: parseDecisions is total — every failure path lands in a `[]` branch
rather than an exception. When the response text contains no brace-delimited
block (the extraction regex finds no match) the result is the empty decision
list; on the literal empty-decisions object it is the empty decision list; and
on a response carrying one well-formed decision it is exactly that decision
object with every field intact. -/
theorem c6_parse_robustness :
    (∀ s : String, extractJson s = none → parseDecisions s = JVal.arr []) ∧
    parseDecisions "\x7b\"decisions\":[]\x7d" = JVal.arr [] ∧
    parseDecisions singleDecisionText = JVal.arr [singleDecisionVal] := by
  refine ⟨?_, rfl, rfl⟩
  intro s h
  unfold parseDecisions
  rw [h]

/-- C6 witness: a response made of prose only extracts no JSON block and
parses to the empty decision list. -/
theorem c6_parse_robustness_witness :
    parseDecisions "hello there" = JVal.arr [] :=
  c6_parse_robustness.1 "hello there" rfl

/-- Closed form of running logDecisions over a batch sequence from any
history within the bound: the concatenation keeps only its last 100 entries. -/
theorem logDecisions_foldl_drop (rs : List DecisionRecord) :
    ∀ h : List DecisionRecord, h.length ≤ 100 →
      rs.foldl logDecisions h = (h ++ rs).drop (h.length + rs.length - 100) := by
  induction rs with
  | nil =>
    intro h hh
    simp [Nat.sub_eq_zero_of_le hh]
  | cons r rs ih =>
    intro h hh
    rw [List.foldl_cons]
    rcases Nat.lt_or_ge h.length 100 with hlt | hge
    · have hstep : logDecisions h r = h ++ [r] := by
        have hcond : ¬(100 < (h ++ [r]).length) := by
          simp only [List.length_append, List.length_singleton, List.length_cons, List.length_nil]
          omega
        show (if 100 < (h ++ [r]).length then (h ++ [r]).tail else h ++ [r]) = h ++ [r]
        rw [if_neg hcond]
      rw [hstep, ih (h ++ [r]) (by simp; omega)]
      have hidx : (h ++ [r]).length + rs.length - 100 =
          h.length + (r :: rs).length - 100 := by
        simp only [List.length_append, List.length_singleton, List.length_cons, List.length_nil]
        omega
      rw [hidx, List.append_assoc]
      rfl
    · have h100 : h.length = 100 := Nat.le_antisymm hh hge
      cases h with
      | nil => simp at h100
      | cons hd t =>
        have hlen : t.length = 99 := by simp at h100; omega
        have hstep : logDecisions (hd :: t) r = t ++ [r] := by
          have hcond : 100 < ((hd :: t) ++ [r]).length := by
            simp only [List.length_append, List.length_singleton, List.length_cons, List.length_nil]
            omega
          show (if 100 < ((hd :: t) ++ [r]).length then ((hd :: t) ++ [r]).tail
                else (hd :: t) ++ [r]) = t ++ [r]
          rw [if_pos hcond]
          rfl
        rw [hstep, ih (t ++ [r]) (by simp [hlen])]
        have hidx1 : (t ++ [r]).length + rs.length - 100 = rs.length := by
          simp [hlen]
        have hidx2 : (hd :: t).length + (r :: rs).length - 100 = rs.length + 1 := by
          simp [hlen]
        rw [hidx1, hidx2, List.append_assoc]
        have : (hd :: t) ++ (r :: rs) = hd :: (t ++ (r :: rs)) := rfl
        rw [this, List.drop_succ_cons]
        rfl

/-- C7: the decision history, grown by logDecisions from the constructor's
empty list, never exceeds 100 entries; and after more than 100 recorded
batches it holds exactly the most recent 100 batches in their original
recording order — the concatenated record sequence with its oldest entries
dropped. -/
theorem c7_history_bounded :
    (∀ rs : List DecisionRecord, (recordAllDecisions rs).length ≤ 100) ∧
    (∀ rs : List DecisionRecord, 100 < rs.length →
      recordAllDecisions rs = rs.drop (rs.length - 100) ∧
      (recordAllDecisions rs).length = 100) := by
  have hclosed : ∀ rs : List DecisionRecord,
      recordAllDecisions rs = rs.drop (rs.length - 100) := by
    intro rs
    have := logDecisions_foldl_drop rs [] (by simp)
    simpa [recordAllDecisions] using this
  constructor
  · intro rs
    rw [hclosed, List.length_drop]
    omega
  · intro rs hlen
    refine ⟨hclosed rs, ?_⟩
    rw [hclosed, List.length_drop]
    omega

/-- C7 witness: one hundred and one recorded batches leave exactly the most
recent hundred, in order. -/
theorem c7_history_bounded_witness :
    recordAllDecisions manyRecords = manyRecords.drop (manyRecords.length - 100) ∧
    (recordAllDecisions manyRecords).length = 100 :=
  c7_history_bounded.2 manyRecords
    (by unfold manyRecords; rw [List.length_map, List.length_range]; omega)

/-- Folding addVal over successful contributions is plain rational addition. -/
theorem foldl_addVal_some (l : List TokenBalance) :
    ∀ a : ℚ, (∀ b ∈ l, (balanceValue b).isSome) →
      l.foldl (fun acc b => addVal acc (balanceValue b)) (some a) =
        some (a + (l.map (fun b => (balanceValue b).getD 0)).sum) := by
  induction l with
  | nil => intro a _; simp
  | cons b l ih =>
    intro a hall
    have hb : (balanceValue b).isSome := hall b (List.mem_cons_self b l)
    obtain ⟨q, hq⟩ := Option.isSome_iff_exists.mp hb
    rw [List.foldl_cons]
    have hstep : addVal (some a) (balanceValue b) = some (a + q) := by
      rw [hq]; rfl
    rw [hstep, ih (a + q) (fun x hx => hall x (List.mem_cons_of_mem b hx))]
    simp [hq, add_assoc]

/-- The nested wallet loops of calculateTotalValue traverse exactly the
flattened balance list. -/
theorem foldl_wallets_flatten (ws : List WalletBalances) :
    ∀ acc : Option ℚ,
      ws.foldl
        (fun acc w => w.balances.foldl (fun acc2 b => addVal acc2 (balanceValue b)) acc)
        acc =
      ((ws.map WalletBalances.balances).flatten).foldl
        (fun acc b => addVal acc (balanceValue b)) acc := by
  induction ws with
  | nil => intro acc; rfl
  | cons w ws ih =>
    intro acc
    rw [List.foldl_cons, List.map_cons, List.flatten_cons, List.foldl_append]
    exact ih _

/-- C8: when every raw value of the report parses to a number, the valuation
is the sum over all wallet balances of rawAmount / 10 ^ decimals times the
table price of the lower-cased asset symbol; a symbol outside the fixed table
prices at zero, contributing nothing and raising no error; and the report
holding a single SOL balance of 1,000,000,000 raw units at 9 decimals values
to exactly 88.50. -/
theorem c8_valuation_sum (r : BalanceReport)
    (h : ∀ b ∈ reportBalances r, (parseFloatStr b.rawValue).isSome) :
    calculateTotalValue r =
      some (((reportBalances r).map
        (fun b => (parseFloatStr b.rawValue).getD 0 / 10 ^ b.decimals *
          priceOf (toLowerAscii b.asset))).sum) ∧
    (∀ b : TokenBalance, toLowerAscii b.asset ≠ "sol" → toLowerAscii b.asset ≠ "usdc" →
      toLowerAscii b.asset ≠ "eth" →
      priceOf (toLowerAscii b.asset) = 0 ∧
        balanceValue b = (parseFloatStr b.rawValue).map (fun _ => 0)) ∧
    calculateTotalValue solReport = some (177 / 2) := by
  have hsol : calculateTotalValue solReport = some (177 / 2) := by
    have hpf : parseFloatStr "1000000000" =
        some ((1 : ℚ) * ((digitsToNat ("1000000000".data) : ℚ) +
          ((digitsToNat [] : ℚ)) / 10 ^ (0 : ℕ)) * (10 : ℚ) ^ (0 : ℤ)) := rfl
    have hd : (digitsToNat ("1000000000".data) : ℕ) = 1000000000 := by decide
    have hd0 : digitsToNat ([] : List Char) = 0 := rfl
    have ht : toLowerAscii "SOL" = "sol" := rfl
    have hbv : balanceValue ⟨"1000000000", 9, "SOL"⟩ = some (177 / 2) := by
      unfold balanceValue
      rw [hpf]
      simp only [Option.map_some']
      rw [hd, hd0]
      show some (1 * (((1000000000 : ℕ) : ℚ) + ((0 : ℕ) : ℚ) / 10 ^ (0 : ℕ)) *
        (10 : ℚ) ^ (0 : ℤ) / 10 ^ (9 : ℕ) * priceOf (toLowerAscii "SOL")) = some (177 / 2)
      rw [ht]
      have hpr : priceOf "sol" = 177 / 2 := rfl
      rw [hpr]
      norm_num
    show addVal (some 0) (balanceValue ⟨"1000000000", 9, "SOL"⟩) = some (177 / 2)
    rw [hbv]
    show some ((0 : ℚ) + 177 / 2) = some (177 / 2)
    norm_num
  refine ⟨?_, ?_, hsol⟩
  · have hall : ∀ b ∈ reportBalances r, (balanceValue b).isSome := by
      intro b hb
      obtain ⟨q, hq⟩ := Option.isSome_iff_exists.mp (h b hb)
      simp [balanceValue, hq]
    have h1 := foldl_wallets_flatten (r.solanaWallets ++ r.evmWallets) (some 0)
    have h2 := foldl_addVal_some (reportBalances r) 0 hall
    unfold calculateTotalValue
    rw [h1]
    rw [show ((r.solanaWallets ++ r.evmWallets).map WalletBalances.balances).flatten =
        reportBalances r from rfl]
    rw [h2, zero_add]
    have hmap : (reportBalances r).map (fun b => (balanceValue b).getD 0) =
        (reportBalances r).map
          (fun b => (parseFloatStr b.rawValue).getD 0 / 10 ^ b.decimals *
            priceOf (toLowerAscii b.asset)) := by
      apply List.map_congr_left
      intro b hb
      obtain ⟨q, hq⟩ := Option.isSome_iff_exists.mp (h b hb)
      simp [balanceValue, hq]
    rw [hmap]
  · intro b h1 h2 h3
    have hp : priceOf (toLowerAscii b.asset) = 0 := by
      unfold priceOf
      rw [if_neg h1, if_neg h2, if_neg h3]
    refine ⟨hp, ?_⟩
    unfold balanceValue
    rw [hp]
    simp

/-- C8 witness: the single-SOL report satisfies the parse hypothesis and
values to 88.50. -/
theorem c8_valuation_sum_witness :
    calculateTotalValue solReport =
      some (((reportBalances solReport).map
        (fun b => (parseFloatStr b.rawValue).getD 0 / 10 ^ b.decimals *
          priceOf (toLowerAscii b.asset))).sum) ∧
    calculateTotalValue solReport = some (177 / 2) :=
  ⟨(c8_valuation_sum solReport (by decide)).1,
   (c8_valuation_sum solReport (by decide)).2.2⟩

/-- A chain of non-decreasing values survives lowering its head. -/
theorem chain_le_head_lower {x t : ℚ} {ts : List ℚ} (hx : x ≤ t)
    (h : List.Chain' (· ≤ ·) (t :: ts)) : List.Chain' (· ≤ ·) (x :: ts) := by
  cases ts with
  | nil => simp
  | cons t2 ts2 =>
    rw [List.chain'_cons] at h ⊢
    exact ⟨le_trans hx h.1, h.2⟩

/-- A cost trace always starts with its starting state. -/
theorem costTrace_head (st : CostState) (ops : List (CostOp × ℚ)) :
    (costTrace st ops).head? = some st := by
  cases ops <;> rfl

/-- The estimated amount is the nonneg period cost whenever the clock has not
run backwards past the last payment. -/
theorem estimate_amount_nonneg (st : CostState) (now : ℚ)
    (h : st.compute.lastPayment ≤ now) :
    0 ≤ (estimateCurrentCosts st now).amount := by
  show 0 ≤ (now - st.compute.lastPayment) / msPerHour * computePerHour
  have h1 : (0 : ℚ) ≤ now - st.compute.lastPayment := by linarith
  have h2 : (0 : ℚ) < msPerHour := by norm_num [msPerHour]
  have h3 : (0 : ℚ) ≤ computePerHour := by norm_num [computePerHour]
  exact mul_nonneg (div_nonneg h1 (le_of_lt h2)) h3

/-- Along any chronologically ordered run, the compute total never steps
down. -/
theorem costTrace_total_mono (ops : List (CostOp × ℚ)) :
    ∀ st : CostState,
      List.Chain' (· ≤ ·) (st.compute.lastPayment :: ops.map Prod.snd) →
      List.Chain' (fun a b => a.compute.total ≤ b.compute.total) (costTrace st ops) := by
  induction ops with
  | nil => intro st _; simp [costTrace]
  | cons op ops ih =>
    intro st h
    obtain ⟨o, t⟩ := op
    rw [List.map_cons, List.chain'_cons] at h
    have h1 : st.compute.lastPayment ≤ t := h.1
    have h2 : List.Chain' (· ≤ ·) (t :: ops.map Prod.snd) := h.2
    show List.Chain' _ (st :: costTrace (costStep st (o, t)) ops)
    rw [List.chain'_cons']
    constructor
    · intro b hb
      rw [costTrace_head] at hb
      cases hb
      cases o with
      | estimateCosts => exact le_refl _
      | payEstimatedCosts =>
        show st.compute.total ≤ st.compute.total + (estimateCurrentCosts st t).amount
        have := estimate_amount_nonneg st t h1
        linarith
    · cases o with
      | estimateCosts => exact ih st (chain_le_head_lower h1 h2)
      | payEstimatedCosts => exact ih _ h2

/-- C3: over any interleaving of estimateCurrentCosts and payComputeCosts
calls at non-decreasing clock readings (each payment paying the amount the
estimate at that instant reports, as the orchestrator wires them), the
cumulative paid total costs.compute.total never decreases; an
estimateCurrentCosts immediately after any payComputeCosts call reports
shouldPay = false; and shouldPay is true exactly when the cost accrued since
the last payment — elapsed hours times the hourly rate — has reached the
$0.01 threshold. -/
theorem c3_cost_accrual (st : CostState) (ops : List (CostOp × ℚ))
    (h : List.Chain' (· ≤ ·) (st.compute.lastPayment :: ops.map Prod.snd)) :
    List.Chain' (fun a b => a.compute.total ≤ b.compute.total) (costTrace st ops) ∧
    (∀ s : CostState, ∀ t a : ℚ,
      (estimateCurrentCosts (payComputeCosts s t a) t).shouldPay = false) ∧
    (∀ s : CostState, ∀ t : ℚ,
      (estimateCurrentCosts s t).shouldPay = true ↔
        payThreshold ≤ (t - s.compute.lastPayment) / msPerHour * computePerHour) := by
  refine ⟨costTrace_total_mono ops st h, ?_, ?_⟩
  · intro s t a
    show decide (payThreshold ≤ (t - t) / msPerHour * computePerHour) = false
    have : (t - t) / msPerHour * computePerHour = 0 := by ring_nf
    rw [this]
    norm_num [payThreshold]
  · intro s t
    exact decide_eq_true_iff

/-- C3 witness: a concrete four-operation interleaving at increasing clock
readings from a fresh ledger, plus the instantiated payment and threshold
facts. -/
theorem c3_cost_accrual_witness :
    List.Chain' (fun a b => a.compute.total ≤ b.compute.total)
      (costTrace (initCostState 1700000000000) costOpsSample) ∧
    (estimateCurrentCosts
      (payComputeCosts (initCostState 1700000000000) 1700000600000 (1 / 100))
      1700000600000).shouldPay = false ∧
    ((estimateCurrentCosts (initCostState 1700000000000) 1700000600000).shouldPay = true ↔
      payThreshold ≤ (1700000600000 - (initCostState 1700000000000).compute.lastPayment) /
        msPerHour * computePerHour) :=
  ⟨(c3_cost_accrual (initCostState 1700000000000) costOpsSample
      (by simp only [costOpsSample, initCostState, List.map_cons, List.map_nil]
          norm_num [List.chain'_cons])).1,
   (c3_cost_accrual (initCostState 1700000000000) costOpsSample
      (by simp only [costOpsSample, initCostState, List.map_cons, List.map_nil]
          norm_num [List.chain'_cons])).2.1
     (initCostState 1700000000000) 1700000600000 (1 / 100),
   (c3_cost_accrual (initCostState 1700000000000) costOpsSample
      (by simp only [costOpsSample, initCostState, List.map_cons, List.map_nil]
          norm_num [List.chain'_cons])).2.2
     (initCostState 1700000000000) 1700000600000⟩

end STA
